import Mathlib

/-!
Shallow embedding of the timing/format transcoding engine of
AssandQrcConverter (src/src/main.rs), together with theorems settling the
specification's claims against it.

Modelling conventions:
* Rust `usize` is 64-bit here.  Arithmetic that can overflow in the source is
  modelled with wrapping operations (`wadd`, `wmul`, reduction modulo `2^64`,
  matching release-build semantics); `saturating_add` / `saturating_sub`
  become `satAdd` / Nat truncated subtraction.
* Rust decimal formatting (`format!("{}", n)`, `format!("{:02}", n)`) is
  modelled by an explicit digit printer (`natDec`, `pad2`); Rust
  `str::parse::<usize>()` by `parseUsize` (optional leading `+`, one or more
  ASCII digits, value in usize range).
* String contents that the source scans with regular expressions are
  modelled post-lexing: the content part of a QRC/LYS line becomes a list of
  `Piece`s — literal text chunks alternating with inline `(start,duration)`
  word-time tags (each tag also carries its raw matched text, which matters
  when the QRC direction skips a tag but leaves its characters in the
  stream).  The source's `sort_by_key` on match positions is the identity on
  this representation, since captures are produced in position order.
-/

namespace AssQrc

/-! ### Constants (src/src/main.rs lines 49-77) -/

def MILLISECONDS_PER_SECOND : Nat := 1000
def MILLISECONDS_PER_MINUTE : Nat := 60 * MILLISECONDS_PER_SECOND
def MILLISECONDS_PER_HOUR : Nat := 60 * MILLISECONDS_PER_MINUTE
/-- Centiseconds-to-milliseconds factor. -/
def CENTISECONDS_TO_MILLISECONDS : Nat := 10
/-- ASS karaoke tag value (centiseconds) to milliseconds multiplier. -/
def K_TAG_MULTIPLIER : Nat := 10

def LYS_PROPERTY_UNSET : Nat := 0
def LYS_PROPERTY_LEFT : Nat := 1
def LYS_PROPERTY_RIGHT : Nat := 2
def LYS_PROPERTY_NO_BACK_LEFT : Nat := 4
def LYS_PROPERTY_NO_BACK_RIGHT : Nat := 5
def LYS_PROPERTY_BACK_UNSET : Nat := 6
def LYS_PROPERTY_BACK_LEFT : Nat := 7
def LYS_PROPERTY_BACK_RIGHT : Nat := 8

/-! ### usize arithmetic -/

def USIZE_MOD : Nat := 2 ^ 64
def USIZE_MAX : Nat := USIZE_MOD - 1

/-- Wrapping addition on usize (release-build overflow semantics). -/
def wadd (a b : Nat) : Nat := (a + b) % USIZE_MOD
/-- Wrapping multiplication on usize (release-build overflow semantics). -/
def wmul (a b : Nat) : Nat := (a * b) % USIZE_MOD
/-- Rust `usize::saturating_add`. -/
def satAdd (a b : Nat) : Nat := min (a + b) USIZE_MAX

/-! ### Decimal printing and parsing -/

/-- A decimal digit as a character (only applied to values `< 10`). -/
def digitChar : Nat → Char
  | 0 => '0' | 1 => '1' | 2 => '2' | 3 => '3' | 4 => '4'
  | 5 => '5' | 6 => '6' | 7 => '7' | 8 => '8' | _ => '9'

/-- Fuelled digit expansion, most significant digit first.  The fuel argument
only makes the recursion structural; `natDecDigits` supplies enough fuel. -/
def natDecDigitsAux : Nat → Nat → List Char
  | 0, _ => []
  | fuel + 1, n =>
    if n < 10 then [digitChar n]
    else natDecDigitsAux fuel (n / 10) ++ [digitChar (n % 10)]

/-- Decimal digits of `n` (Rust `format!("{}", n)` for usize). -/
def natDecDigits (n : Nat) : List Char := natDecDigitsAux (n + 1) n

/-- Rust `format!("{}", n)`. -/
def natDec (n : Nat) : String := String.mk (natDecDigits n)

/-- Digits of Rust `format!("{:02}", n)`: zero-padded to width two. -/
def pad2Digits (n : Nat) : List Char :=
  if n < 10 then '0' :: natDecDigits n else natDecDigits n

/-- Rust `format!("{:02}", n)`. -/
def pad2 (n : Nat) : String := String.mk (pad2Digits n)

/-- Numeric value of a digit character. -/
def digitVal (c : Char) : Nat := c.toNat - 48

/-- Value of a most-significant-first digit string. -/
def digitsToNat (ds : List Char) : Nat := ds.foldl (fun a c => a * 10 + digitVal c) 0

/-- Rust `str::parse::<usize>()`: an optional leading `+`, then one or more
ASCII digits, and the value must fit in usize; anything else is a
`ParseIntError`. -/
def parseUsize (s : String) : Option Nat :=
  let ds := if s.data.head? = some '+' then s.data.tail else s.data
  if ds = [] then none
  else if ds.all Char.isDigit then
    if digitsToNat ds < USIZE_MOD then some (digitsToNat ds) else none
  else none

/-! ### Time codec (src/src/main.rs lines 1370-1403) -/

/-- `milliseconds_to_time` (lines 1371-1381): milliseconds to `H:MM:SS.cs`. -/
def milliseconds_to_time (ms : Nat) : String :=
  natDec (ms / MILLISECONDS_PER_HOUR) ++ ":" ++
  pad2 ((ms % MILLISECONDS_PER_HOUR) / MILLISECONDS_PER_MINUTE) ++ ":" ++
  pad2 ((ms % MILLISECONDS_PER_MINUTE) / MILLISECONDS_PER_SECOND) ++ "." ++
  pad2 ((ms % MILLISECONDS_PER_SECOND) / CENTISECONDS_TO_MILLISECONDS)

/-- The separators `time_to_milliseconds` splits on. -/
def isSep (c : Char) : Bool := c == ':' || c == '.'

def splitSepAux : List Char → List Char → List String
  | [], acc => [String.mk acc.reverse]
  | c :: cs, acc =>
    if isSep c then String.mk acc.reverse :: splitSepAux cs []
    else splitSepAux cs (c :: acc)

/-- Rust `time_str.split(&[':', '.'][..]).collect()`. -/
def splitTime (s : String) : List String := splitSepAux s.data []

/-- The error type of the engine (src/src/main.rs lines 112-117; the `Io` and
`Regex` wrappers carry opaque library errors irrelevant to the claims). -/
inductive ConversionError where
  | io : ConversionError
  | regex : ConversionError
  | parseInt : ConversionError
  | invalidFormat : String → ConversionError
deriving DecidableEq

deriving instance DecidableEq for Except

/-- `time_to_milliseconds` (lines 1384-1403): split on `:` and `.`, require
exactly four numeric parts, combine with the usual factors.  The source
checks `parts.len() != 4` and then indexes `parts[0..=3]`; matching on the
four-element list shape is the same test. -/
def time_to_milliseconds (time_str : String) : Except ConversionError Nat :=
  match splitTime time_str with
  | [p0, p1, p2, p3] =>
    match parseUsize p0 with
    | none => .error .parseInt
    | some hv =>
      match parseUsize p1 with
      | none => .error .parseInt
      | some mv =>
        match parseUsize p2 with
        | none => .error .parseInt
        | some sv =>
          match parseUsize p3 with
          | none => .error .parseInt
          | some csv =>
            .ok (wadd (wadd (wadd (wmul hv MILLISECONDS_PER_HOUR)
                                  (wmul mv MILLISECONDS_PER_MINUTE))
                            (wmul sv MILLISECONDS_PER_SECOND))
                      (wmul csv CENTISECONDS_TO_MILLISECONDS))
  | _ =>
    .error (.invalidFormat ("无效 ASS 时间格式: " ++ time_str ++ ", 期望 H:MM:SS.cs"))

/-! ### Basic facts about the decimal printer and parser -/

theorem digitChar_isDigit (k : Nat) : (digitChar k).isDigit = true := by
  unfold digitChar
  split <;> decide

theorem digitVal_digitChar {k : Nat} (h : k < 10) : digitVal (digitChar k) = k := by
  interval_cases k <;> decide

theorem natDecDigitsAux_spec :
    ∀ fuel n, n < fuel →
      natDecDigitsAux fuel n ≠ [] ∧
      (∀ ch ∈ natDecDigitsAux fuel n, ch.isDigit = true) ∧
      digitsToNat (natDecDigitsAux fuel n) = n := by
  intro fuel
  induction fuel with
  | zero => intro n h; omega
  | succ fuel ih =>
    intro n _
    by_cases h10 : n < 10
    · refine ⟨by simp [natDecDigitsAux, h10], ?_, ?_⟩
      · intro ch hch
        simp only [natDecDigitsAux, if_pos h10, List.mem_singleton] at hch
        exact hch ▸ digitChar_isDigit n
      · simp only [natDecDigitsAux, if_pos h10]
        show digitsToNat [digitChar n] = n
        have : digitsToNat [digitChar n] = digitVal (digitChar n) := by
          simp [digitsToNat]
        rw [this, digitVal_digitChar h10]
    · have hrec := ih (n / 10) (by omega)
      simp only [natDecDigitsAux, if_neg h10]
      refine ⟨by simp, ?_, ?_⟩
      · intro ch hch
        rcases List.mem_append.mp hch with h | h
        · exact hrec.2.1 ch h
        · simp only [List.mem_singleton] at h
          exact h ▸ digitChar_isDigit (n % 10)
      · have happ : digitsToNat (natDecDigitsAux fuel (n / 10) ++ [digitChar (n % 10)]) =
            digitsToNat (natDecDigitsAux fuel (n / 10)) * 10 + digitVal (digitChar (n % 10)) := by
          simp [digitsToNat, List.foldl_append]
        rw [happ, hrec.2.2, digitVal_digitChar (Nat.mod_lt _ (by norm_num))]
        omega

theorem natDecDigits_ne_nil (n : Nat) : natDecDigits n ≠ [] :=
  (natDecDigitsAux_spec (n + 1) n (Nat.lt_succ_self n)).1

theorem natDecDigits_isDigit (n : Nat) : ∀ ch ∈ natDecDigits n, ch.isDigit = true :=
  (natDecDigitsAux_spec (n + 1) n (Nat.lt_succ_self n)).2.1

theorem digitsToNat_natDecDigits (n : Nat) : digitsToNat (natDecDigits n) = n :=
  (natDecDigitsAux_spec (n + 1) n (Nat.lt_succ_self n)).2.2

theorem digitsToNat_cons_zero (l : List Char) : digitsToNat ('0' :: l) = digitsToNat l := by
  have h0 : digitVal '0' = 0 := by decide
  simp [digitsToNat, h0]

theorem pad2Digits_ne_nil (n : Nat) : pad2Digits n ≠ [] := by
  unfold pad2Digits
  split
  · simp
  · exact natDecDigits_ne_nil n

theorem pad2Digits_isDigit (n : Nat) : ∀ ch ∈ pad2Digits n, ch.isDigit = true := by
  unfold pad2Digits
  split
  · intro ch hch
    rcases List.mem_cons.mp hch with h | h
    · rw [h]; decide
    · exact natDecDigits_isDigit n ch h
  · exact natDecDigits_isDigit n

theorem digitsToNat_pad2Digits (n : Nat) : digitsToNat (pad2Digits n) = n := by
  unfold pad2Digits
  split
  · rw [digitsToNat_cons_zero, digitsToNat_natDecDigits]
  · exact digitsToNat_natDecDigits n

theorem parseUsize_mk_digits (ds : List Char) (hne : ds ≠ [])
    (hd : ∀ ch ∈ ds, ch.isDigit = true) (hb : digitsToNat ds < USIZE_MOD) :
    parseUsize (String.mk ds) = some (digitsToNat ds) := by
  have hdata : (String.mk ds).data = ds := rfl
  unfold parseUsize
  rw [hdata]
  have hhead : ¬ ds.head? = some '+' := by
    cases ds with
    | nil => simp
    | cons c tail =>
      have hc := hd c (by simp)
      simp only [List.head?_cons]
      intro hcon
      rw [Option.some_inj.mp hcon] at hc
      exact absurd hc (by decide)
  rw [if_neg hhead, if_neg hne, if_pos (List.all_eq_true.mpr hd), if_pos hb]

theorem parseUsize_natDec {n : Nat} (h : n < USIZE_MOD) : parseUsize (natDec n) = some n := by
  have := parseUsize_mk_digits (natDecDigits n) (natDecDigits_ne_nil n)
    (natDecDigits_isDigit n) (by rw [digitsToNat_natDecDigits]; exact h)
  rwa [digitsToNat_natDecDigits] at this

theorem parseUsize_pad2 {n : Nat} (h : n < USIZE_MOD) : parseUsize (pad2 n) = some n := by
  have := parseUsize_mk_digits (pad2Digits n) (pad2Digits_ne_nil n)
    (pad2Digits_isDigit n) (by rw [digitsToNat_pad2Digits]; exact h)
  rwa [digitsToNat_pad2Digits] at this

/-! ### Splitting the formatted time string -/

theorem string_data_append (s t : String) : (s ++ t).data = s.data ++ t.data := rfl

theorem isSep_eq_false_of_isDigit {ch : Char} (h : ch.isDigit = true) : isSep ch = false := by
  by_cases h1 : ch = ':'
  · rw [h1] at h; exact absurd h (by decide)
  · by_cases h2 : ch = '.'
    · rw [h2] at h; exact absurd h (by decide)
    · simp [isSep, h1, h2]

theorem splitSepAux_no_sep (ds : List Char) (hds : ∀ c ∈ ds, isSep c = false) :
    ∀ acc, splitSepAux ds acc = [String.mk (acc.reverse ++ ds)] := by
  induction ds with
  | nil => intro acc; simp [splitSepAux]
  | cons d ds ih =>
    intro acc
    have hd : isSep d = false := hds d (by simp)
    simp only [splitSepAux, hd, Bool.false_eq_true, if_false]
    rw [ih (fun c hc => hds c (by simp [hc])) (d :: acc)]
    simp

theorem splitSepAux_sep (ds : List Char) (hds : ∀ c ∈ ds, isSep c = false)
    (c : Char) (hc : isSep c = true) (rest : List Char) :
    ∀ acc, splitSepAux (ds ++ c :: rest) acc =
      String.mk (acc.reverse ++ ds) :: splitSepAux rest [] := by
  induction ds with
  | nil =>
    intro acc
    simp only [List.nil_append, splitSepAux, hc, if_true, List.append_nil]
  | cons d ds ih =>
    intro acc
    have hd : isSep d = false := hds d (by simp)
    simp only [List.cons_append, splitSepAux, hd, Bool.false_eq_true, if_false]
    rw [show ds.append (c :: rest) = ds ++ c :: rest from rfl]
    rw [ih (fun c hc => hds c (by simp [hc])) (d :: acc)]
    simp

theorem splitTime_concat4 (a b c d : List Char)
    (ha : ∀ ch ∈ a, isSep ch = false) (hb : ∀ ch ∈ b, isSep ch = false)
    (hc : ∀ ch ∈ c, isSep ch = false) (hd : ∀ ch ∈ d, isSep ch = false) :
    splitTime (String.mk a ++ ":" ++ String.mk b ++ ":" ++ String.mk c ++ "." ++ String.mk d) =
      [String.mk a, String.mk b, String.mk c, String.mk d] := by
  have hdata :
      (String.mk a ++ ":" ++ String.mk b ++ ":" ++ String.mk c ++ "." ++ String.mk d).data =
        a ++ ':' :: (b ++ ':' :: (c ++ '.' :: d)) := by
    simp only [string_data_append]
    simp [List.append_assoc]
  unfold splitTime
  rw [hdata]
  rw [splitSepAux_sep a ha ':' (by decide) _ []]
  rw [splitSepAux_sep b hb ':' (by decide) _ []]
  rw [splitSepAux_sep c hc '.' (by decide) _ []]
  rw [splitSepAux_no_sep d hd []]
  simp

/-! ### Claims C1 and C8: the Time Codec -/

theorem MPS_eq : MILLISECONDS_PER_SECOND = 1000 := rfl

theorem MPM_eq : MILLISECONDS_PER_MINUTE = 60000 := by
  norm_num [MILLISECONDS_PER_MINUTE, MILLISECONDS_PER_SECOND]

theorem MPH_eq : MILLISECONDS_PER_HOUR = 3600000 := by
  norm_num [MILLISECONDS_PER_HOUR, MILLISECONDS_PER_MINUTE, MILLISECONDS_PER_SECOND]

theorem CTM_eq : CENTISECONDS_TO_MILLISECONDS = 10 := rfl

theorem USIZE_MOD_eq : USIZE_MOD = 18446744073709551616 := by norm_num [USIZE_MOD]

theorem time_codec_arith (x : Nat) (h10 : x % 10 = 0) (hx : x < 18446744073709551616) :
    ((((x / 3600000 * 3600000) % 18446744073709551616 +
        x % 3600000 / 60000 * 60000 % 18446744073709551616) % 18446744073709551616 +
       x % 60000 / 1000 * 1000 % 18446744073709551616) % 18446744073709551616 +
      x % 1000 / 10 * 10 % 18446744073709551616) % 18446744073709551616 = x := by
  have hmm1 : x % 3600000 % 60000 = x % 60000 := Nat.mod_mod_of_dvd x (by norm_num)
  have hmm2 : x % 60000 % 1000 = x % 1000 := Nat.mod_mod_of_dvd x (by norm_num)
  have hmm3 : x % 1000 % 10 = x % 10 := Nat.mod_mod_of_dvd x (by norm_num)
  have h10' : x % 3600000 % 60000 % 1000 % 10 = 0 := by rw [hmm1, hmm2, hmm3]; exact h10
  rw [← hmm2, ← hmm1]
  have e1 := Nat.div_add_mod x 3600000
  have l1 : x % 3600000 < 3600000 := Nat.mod_lt _ (by norm_num)
  generalize ha : x / 3600000 = a at e1 ⊢
  generalize hr1 : x % 3600000 = r1 at e1 l1 h10' ⊢
  have e2 := Nat.div_add_mod r1 60000
  have l2 : r1 % 60000 < 60000 := Nat.mod_lt _ (by norm_num)
  generalize hb : r1 / 60000 = b at e2 ⊢
  generalize hr2 : r1 % 60000 = r2 at e2 l2 h10' ⊢
  have e3 := Nat.div_add_mod r2 1000
  have l3 : r2 % 1000 < 1000 := Nat.mod_lt _ (by norm_num)
  generalize hc : r2 / 1000 = c at e3 ⊢
  generalize hr3 : r2 % 1000 = r3 at e3 l3 h10' ⊢
  have e4 := Nat.div_add_mod r3 10
  generalize hd : r3 / 10 = d at e4 ⊢
  generalize hr4 : r3 % 10 = r4 at e4 h10'
  omega

/-- C1: for every representable non-negative millisecond value `x` — i.e. a
value expressible in the `H:MM:SS.cs` output format (a multiple of 10 ms)
that fits in usize — converting `x` to the ASS time string and back returns
`x`: `time_to_milliseconds (milliseconds_to_time x) = ok x`. -/
theorem claim_C1_time_codec_roundtrip (x : Nat) (h10 : x % 10 = 0) (hx : x < USIZE_MOD) :
    time_to_milliseconds (milliseconds_to_time x) = .ok x := by
  have hA : ∀ ch ∈ natDecDigits (x / MILLISECONDS_PER_HOUR), isSep ch = false :=
    fun ch h => isSep_eq_false_of_isDigit (natDecDigits_isDigit _ ch h)
  have hB : ∀ ch ∈ pad2Digits ((x % MILLISECONDS_PER_HOUR) / MILLISECONDS_PER_MINUTE),
      isSep ch = false :=
    fun ch h => isSep_eq_false_of_isDigit (pad2Digits_isDigit _ ch h)
  have hC : ∀ ch ∈ pad2Digits ((x % MILLISECONDS_PER_MINUTE) / MILLISECONDS_PER_SECOND),
      isSep ch = false :=
    fun ch h => isSep_eq_false_of_isDigit (pad2Digits_isDigit _ ch h)
  have hD : ∀ ch ∈ pad2Digits ((x % MILLISECONDS_PER_SECOND) / CENTISECONDS_TO_MILLISECONDS),
      isSep ch = false :=
    fun ch h => isSep_eq_false_of_isDigit (pad2Digits_isDigit _ ch h)
  have hform : milliseconds_to_time x =
      String.mk (natDecDigits (x / MILLISECONDS_PER_HOUR)) ++ ":" ++
      String.mk (pad2Digits ((x % MILLISECONDS_PER_HOUR) / MILLISECONDS_PER_MINUTE)) ++ ":" ++
      String.mk (pad2Digits ((x % MILLISECONDS_PER_MINUTE) / MILLISECONDS_PER_SECOND)) ++ "." ++
      String.mk (pad2Digits ((x % MILLISECONDS_PER_SECOND) / CENTISECONDS_TO_MILLISECONDS)) := rfl
  have hsplit := splitTime_concat4 _ _ _ _ hA hB hC hD
  have hb0 : x / MILLISECONDS_PER_HOUR < USIZE_MOD :=
    lt_of_le_of_lt (Nat.div_le_self _ _) hx
  have hb1 : (x % MILLISECONDS_PER_HOUR) / MILLISECONDS_PER_MINUTE < USIZE_MOD :=
    lt_of_le_of_lt (le_trans (Nat.div_le_self _ _) (Nat.mod_le _ _)) hx
  have hb2 : (x % MILLISECONDS_PER_MINUTE) / MILLISECONDS_PER_SECOND < USIZE_MOD :=
    lt_of_le_of_lt (le_trans (Nat.div_le_self _ _) (Nat.mod_le _ _)) hx
  have hb3 : (x % MILLISECONDS_PER_SECOND) / CENTISECONDS_TO_MILLISECONDS < USIZE_MOD :=
    lt_of_le_of_lt (le_trans (Nat.div_le_self _ _) (Nat.mod_le _ _)) hx
  have hp0 : parseUsize (String.mk (natDecDigits (x / MILLISECONDS_PER_HOUR))) =
      some (x / MILLISECONDS_PER_HOUR) := parseUsize_natDec hb0
  have hp1 : parseUsize (String.mk
        (pad2Digits ((x % MILLISECONDS_PER_HOUR) / MILLISECONDS_PER_MINUTE))) =
      some ((x % MILLISECONDS_PER_HOUR) / MILLISECONDS_PER_MINUTE) := parseUsize_pad2 hb1
  have hp2 : parseUsize (String.mk
        (pad2Digits ((x % MILLISECONDS_PER_MINUTE) / MILLISECONDS_PER_SECOND))) =
      some ((x % MILLISECONDS_PER_MINUTE) / MILLISECONDS_PER_SECOND) := parseUsize_pad2 hb2
  have hp3 : parseUsize (String.mk
        (pad2Digits ((x % MILLISECONDS_PER_SECOND) / CENTISECONDS_TO_MILLISECONDS))) =
      some ((x % MILLISECONDS_PER_SECOND) / CENTISECONDS_TO_MILLISECONDS) := parseUsize_pad2 hb3
  unfold time_to_milliseconds
  rw [hform, hsplit]
  dsimp only
  rw [hp0, hp1, hp2, hp3]
  dsimp only
  congr 1
  simp only [wadd, wmul, MPH_eq, MPM_eq, MPS_eq, CTM_eq, USIZE_MOD_eq]
  rw [USIZE_MOD_eq] at hx
  exact time_codec_arith x h10 hx

/-- Witness for C1 at the concrete representable value 3723450 ms. -/
theorem claim_C1_time_codec_roundtrip_witness :
    time_to_milliseconds (milliseconds_to_time 3723450) = .ok 3723450 :=
  claim_C1_time_codec_roundtrip 3723450 (by decide) (by decide)

/-- C8: `time_to_milliseconds` splits its input on `:` and `.` and fails (never
returns a success value) exactly when the number of parts is not 4 or some
part is not numeric (does not parse as a usize); when all four parts are
numeric it returns `h*3600000 + m*60000 + s*1000 + cs*10` (stated for sums in
usize range, where the wrapping arithmetic coincides with exact
arithmetic). -/
theorem claim_C8_time_parse_errors (s : String) :
    ((∃ e, time_to_milliseconds s = .error e) ↔
      (splitTime s).length ≠ 4 ∨ ∃ p ∈ splitTime s, parseUsize p = none) ∧
    (∀ p0 p1 p2 p3 v0 v1 v2 v3,
      splitTime s = [p0, p1, p2, p3] →
      parseUsize p0 = some v0 → parseUsize p1 = some v1 →
      parseUsize p2 = some v2 → parseUsize p3 = some v3 →
      v0 * 3600000 + v1 * 60000 + v2 * 1000 + v3 * 10 < USIZE_MOD →
      time_to_milliseconds s = .ok (v0 * 3600000 + v1 * 60000 + v2 * 1000 + v3 * 10)) := by
  rcases hs : splitTime s with _ | ⟨p0, _ | ⟨p1, _ | ⟨p2, _ | ⟨p3, _ | ⟨p4, rest⟩⟩⟩⟩⟩
  case nil =>
    have herr : time_to_milliseconds s = .error
        (.invalidFormat ("无效 ASS 时间格式: " ++ s ++ ", 期望 H:MM:SS.cs")) := by
      unfold time_to_milliseconds; rw [hs]
    exact ⟨⟨fun _ => Or.inl (by simp), fun _ => ⟨_, herr⟩⟩,
      fun q0 q1 q2 q3 _ _ _ _ h4 => absurd h4 (by simp)⟩
  case cons.nil =>
    have herr : time_to_milliseconds s = .error
        (.invalidFormat ("无效 ASS 时间格式: " ++ s ++ ", 期望 H:MM:SS.cs")) := by
      unfold time_to_milliseconds; rw [hs]
    exact ⟨⟨fun _ => Or.inl (by simp), fun _ => ⟨_, herr⟩⟩,
      fun q0 q1 q2 q3 _ _ _ _ h4 => absurd h4 (by simp)⟩
  case cons.cons.nil =>
    have herr : time_to_milliseconds s = .error
        (.invalidFormat ("无效 ASS 时间格式: " ++ s ++ ", 期望 H:MM:SS.cs")) := by
      unfold time_to_milliseconds; rw [hs]
    exact ⟨⟨fun _ => Or.inl (by simp), fun _ => ⟨_, herr⟩⟩,
      fun q0 q1 q2 q3 _ _ _ _ h4 => absurd h4 (by simp)⟩
  case cons.cons.cons.nil =>
    have herr : time_to_milliseconds s = .error
        (.invalidFormat ("无效 ASS 时间格式: " ++ s ++ ", 期望 H:MM:SS.cs")) := by
      unfold time_to_milliseconds; rw [hs]
    exact ⟨⟨fun _ => Or.inl (by simp), fun _ => ⟨_, herr⟩⟩,
      fun q0 q1 q2 q3 _ _ _ _ h4 => absurd h4 (by simp)⟩
  case cons.cons.cons.cons.cons =>
    have herr : time_to_milliseconds s = .error
        (.invalidFormat ("无效 ASS 时间格式: " ++ s ++ ", 期望 H:MM:SS.cs")) := by
      unfold time_to_milliseconds; rw [hs]
    exact ⟨⟨fun _ => Or.inl (by simp), fun _ => ⟨_, herr⟩⟩,
      fun q0 q1 q2 q3 _ _ _ _ h4 => absurd h4 (by simp)⟩
  case cons.cons.cons.cons.nil =>
    rcases hq0 : parseUsize p0 with _ | v0
    · have herr : time_to_milliseconds s = .error .parseInt := by
        unfold time_to_milliseconds; rw [hs]; dsimp only; rw [hq0]
      refine ⟨⟨fun _ => Or.inr ⟨p0, by simp, hq0⟩, fun _ => ⟨_, herr⟩⟩, ?_⟩
      intro q0 q1 q2 q3 w0 w1 w2 w3 h4 hw0 _ _ _ _
      obtain ⟨rfl, rfl, rfl, rfl⟩ : q0 = p0 ∧ q1 = p1 ∧ q2 = p2 ∧ q3 = p3 := by
        simpa using h4.symm
      rw [hq0] at hw0; exact absurd hw0 (by simp)
    rcases hq1 : parseUsize p1 with _ | v1
    · have herr : time_to_milliseconds s = .error .parseInt := by
        unfold time_to_milliseconds; rw [hs]; dsimp only; rw [hq0, hq1]
      refine ⟨⟨fun _ => Or.inr ⟨p1, by simp, hq1⟩, fun _ => ⟨_, herr⟩⟩, ?_⟩
      intro q0 q1 q2 q3 w0 w1 w2 w3 h4 _ hw1 _ _ _
      obtain ⟨rfl, rfl, rfl, rfl⟩ : q0 = p0 ∧ q1 = p1 ∧ q2 = p2 ∧ q3 = p3 := by
        simpa using h4.symm
      rw [hq1] at hw1; exact absurd hw1 (by simp)
    rcases hq2 : parseUsize p2 with _ | v2
    · have herr : time_to_milliseconds s = .error .parseInt := by
        unfold time_to_milliseconds; rw [hs]; dsimp only; rw [hq0, hq1, hq2]
      refine ⟨⟨fun _ => Or.inr ⟨p2, by simp, hq2⟩, fun _ => ⟨_, herr⟩⟩, ?_⟩
      intro q0 q1 q2 q3 w0 w1 w2 w3 h4 _ _ hw2 _ _
      obtain ⟨rfl, rfl, rfl, rfl⟩ : q0 = p0 ∧ q1 = p1 ∧ q2 = p2 ∧ q3 = p3 := by
        simpa using h4.symm
      rw [hq2] at hw2; exact absurd hw2 (by simp)
    rcases hq3 : parseUsize p3 with _ | v3
    · have herr : time_to_milliseconds s = .error .parseInt := by
        unfold time_to_milliseconds; rw [hs]; dsimp only; rw [hq0, hq1, hq2, hq3]
      refine ⟨⟨fun _ => Or.inr ⟨p3, by simp, hq3⟩, fun _ => ⟨_, herr⟩⟩, ?_⟩
      intro q0 q1 q2 q3 w0 w1 w2 w3 h4 _ _ _ hw3 _
      obtain ⟨rfl, rfl, rfl, rfl⟩ : q0 = p0 ∧ q1 = p1 ∧ q2 = p2 ∧ q3 = p3 := by
        simpa using h4.symm
      rw [hq3] at hw3; exact absurd hw3 (by simp)
    · have hok : time_to_milliseconds s =
          .ok (wadd (wadd (wadd (wmul v0 MILLISECONDS_PER_HOUR)
                                (wmul v1 MILLISECONDS_PER_MINUTE))
                          (wmul v2 MILLISECONDS_PER_SECOND))
                    (wmul v3 CENTISECONDS_TO_MILLISECONDS)) := by
        unfold time_to_milliseconds; rw [hs]; dsimp only; rw [hq0, hq1, hq2, hq3]
      constructor
      · constructor
        · intro ⟨e, he⟩
          rw [hok] at he; exact absurd he (by simp)
        · intro h
          rcases h with h | ⟨p, hp, hnone⟩
          · simp at h
          · simp only [List.mem_cons, List.not_mem_nil, or_false] at hp
            rcases hp with rfl | rfl | rfl | rfl
            · rw [hq0] at hnone; exact absurd hnone (by simp)
            · rw [hq1] at hnone; exact absurd hnone (by simp)
            · rw [hq2] at hnone; exact absurd hnone (by simp)
            · rw [hq3] at hnone; exact absurd hnone (by simp)
      · intro q0 q1 q2 q3 w0 w1 w2 w3 h4 hw0 hw1 hw2 hw3 hbound
        obtain ⟨rfl, rfl, rfl, rfl⟩ : q0 = p0 ∧ q1 = p1 ∧ q2 = p2 ∧ q3 = p3 := by
          simpa using h4.symm
        rw [hq0] at hw0; rw [hq1] at hw1; rw [hq2] at hw2; rw [hq3] at hw3
        obtain rfl : v0 = w0 := by simpa using hw0
        obtain rfl : v1 = w1 := by simpa using hw1
        obtain rfl : v2 = w2 := by simpa using hw2
        obtain rfl : v3 = w3 := by simpa using hw3
        rw [hok]
        congr 1
        rw [USIZE_MOD_eq] at hbound
        simp only [wadd, wmul, MPH_eq, MPM_eq, MPS_eq, CTM_eq, USIZE_MOD_eq]
        omega

/-- Witness for C8: the well-formed time string `1:02:03.45` parses. -/
theorem claim_C8_time_parse_errors_witness :
    time_to_milliseconds "1:02:03.45" = Except.ok 3723450 := by
  have h := (claim_C8_time_parse_errors "1:02:03.45").2 "1" "02" "03" "45" 1 2 3 45
    (by decide) (by decide) (by decide) (by decide) (by decide) (by decide)
  simpa using h

/-! ### Karaoke tag emission (shared by QRC→ASS lines 796-858 and LYS→ASS
lines 1096-1163, which inline the identical pattern) -/

/-- The K-value of a duration: `(duration_ms + K_TAG_MULTIPLIER / 2) /
K_TAG_MULTIPLIER` (lines 806, 813, 836, 850, 1105, 1116, 1139, 1154).  The
addition is usize arithmetic, so it wraps for `duration_ms > usize::MAX - 5`
(release-build semantics); the division cannot overflow. -/
def kValue (duration_ms : Nat) : Nat :=
  wadd duration_ms (K_TAG_MULTIPLIER / 2) / K_TAG_MULTIPLIER

/-- A karaoke tag `{\kN}` (the braces are written `\x7b`/`\x7d`). -/
def kTag (k : Nat) : String := "\x7b\\k" ++ natDec k ++ "\x7d"

/-- Gap emission: a standalone duration tag, but only when the K-value is
nonzero (lines 807-809, 1106-1109). -/
def gapEmit (k : Nat) : String := if k > 0 then kTag k else ""

/-- Segment emission: tag plus its preceding text when the K-value is
nonzero; the bare text when the K-value is zero and the text non-empty
(lines 816-823, 1119-1125). -/
def segEmit (k : Nat) (text : String) : String :=
  if k > 0 then kTag k ++ text else if text ≠ "" then text else ""

/-- The lexed content part of a QRC or LYS line: literal text chunks
alternating with `(start_ms,duration_ms)` word-time tags, in position order.
A tag also records the raw text the regex matched, because the QRC direction
skips zero-duration tags without consuming their characters. -/
inductive Piece where
  | txt : String → Piece
  | tag : String → Nat → Nat → Piece
deriving DecidableEq

/-- The token walk of `convert_qrc_to_ass` (lines 779-828): zero-duration
word tags are filtered out when the time tags are collected (line 788), so
their raw characters stay in the content stream and merge into the next
segment's preceding text.  State: (pending preceding text, last word end
time, built ASS text); returns (builder, last end, remaining pending). -/
def qrcWalk : List Piece → String → Nat → String → String × Nat × String
  | [], pending, lastEnd, builder => (builder, lastEnd, pending)
  | .txt t :: rest, pending, lastEnd, builder => qrcWalk rest (pending ++ t) lastEnd builder
  | .tag raw s d :: rest, pending, lastEnd, builder =>
    if d = 0 then qrcWalk rest (pending ++ raw) lastEnd builder
    else
      qrcWalk rest "" (satAdd s d)
        (builder ++ (if lastEnd < s then gapEmit (kValue (s - lastEnd)) else "") ++
          segEmit (kValue d) pending)

/-- The shared tail logic after the last word tag (QRC lines 830-855, LYS
lines 1133-1159): attach a trailing gap tag to any remaining text, or emit a
bare gap tag when text is exhausted but time remains. -/
def finishTail (endMs lastEnd : Nat) (remaining builder : String) : String :=
  if remaining ≠ "" then
    if endMs > lastEnd then
      if kValue (endMs - lastEnd) > 0 then builder ++ kTag (kValue (endMs - lastEnd)) ++ remaining
      else builder ++ remaining
    else builder ++ remaining
  else
    if endMs > lastEnd then
      if kValue (endMs - lastEnd) > 0 then builder ++ kTag (kValue (endMs - lastEnd)) else builder
    else builder

/-- Left-to-right, non-overlapping removal of every occurrence of `pat`
(fuelled; one unit of fuel per consumed character suffices). -/
def removeAll (pat : List Char) : Nat → List Char → List Char
  | 0, cs => cs
  | _ + 1, [] => []
  | fuel + 1, c :: cs =>
    if (c :: cs).take pat.length = pat then removeAll pat fuel ((c :: cs).drop pat.length)
    else c :: removeAll pat fuel cs

/-- Rust `str::replace(pat, "")`. -/
def replaceRemove (pat s : String) : String :=
  String.mk (removeAll pat.data s.data.length s.data)

/-- The reconstructed ASS text of one QRC line with header
`[header_start_ms,header_duration_ms]` (lines 765-858), including the final
safety-net `replace("{\\k0}", "")` of line 858. -/
def qrcReconstructText (header_start_ms header_duration_ms : Nat)
    (pieces : List Piece) : String :=
  let r := qrcWalk pieces "" header_start_ms ""
  replaceRemove (kTag 0)
    (finishTail (satAdd header_start_ms header_duration_ms) r.2.1 r.2.2 r.1)

/-- Number of (possibly overlapping) occurrences of `pat` in a character
list; used to count karaoke tags in a reconstructed line. -/
def countOcc (pat : List Char) : List Char → Nat
  | [] => 0
  | c :: rest =>
    (if pat ≠ [] ∧ (c :: rest).take pat.length = pat then 1 else 0) + countOcc pat rest

/-! ### The LYS→ASS conversion (lines 1045-1189) -/

/-- The token walk of `convert_lys_to_ass` (lines 1100-1131): identical to
the QRC walk except that no zero-duration filter is applied. -/
def lysWalk : List Piece → String → Nat → String → String × Nat × String
  | [], pending, lastEnd, builder => (builder, lastEnd, pending)
  | .txt t :: rest, pending, lastEnd, builder => lysWalk rest (pending ++ t) lastEnd builder
  | .tag _ s d :: rest, pending, lastEnd, builder =>
    lysWalk rest "" (satAdd s d)
      (builder ++ (if lastEnd < s then gapEmit (kValue (s - lastEnd)) else "") ++
        segEmit (kValue d) pending)

/-- All `(start_ms,duration_ms)` word-time tags of a LYS line, in position
order (lines 1051-1059; no duration filter). -/
def lysLineTokens (pieces : List Piece) : List (Nat × Nat) :=
  pieces.filterMap fun p =>
    match p with
    | .tag _ s d => some (s, d)
    | .txt _ => none

/-- The minimum token start time (lines 1073-1086, fold with initial value
`usize::MAX`). -/
def lysMinStart (ts : List (Nat × Nat)) : Nat :=
  ts.foldl (fun acc p => if p.1 < acc then p.1 else acc) USIZE_MAX

/-- The maximum of `start.saturating_add(duration)` over the tokens (lines
1073-1086, fold with initial value 0). -/
def lysMaxEnd (ts : List (Nat × Nat)) : Nat :=
  ts.foldl (fun acc p => if acc < satAdd p.1 p.2 then satAdd p.1 p.2 else acc) 0

/-- The Name field written for a LYS property code (lines 1166-1175). -/
def assNameOfProperty (property : Nat) : String :=
  if property = LYS_PROPERTY_LEFT ∨ property = LYS_PROPERTY_NO_BACK_LEFT ∨
      property = LYS_PROPERTY_BACK_LEFT then "左"
  else if property = LYS_PROPERTY_RIGHT ∨ property = LYS_PROPERTY_NO_BACK_RIGHT ∨
      property = LYS_PROPERTY_BACK_RIGHT then "右"
  else if property = LYS_PROPERTY_BACK_UNSET then "背"
  else ""

/-- The fields of one emitted ASS dialogue line. -/
structure AssDialogueOut where
  name : String
  startMs : Nat
  endMs : Nat
  text : String
deriving DecidableEq

/-- Conversion of one parsed LYS line (property code plus lexed content) to
an ASS dialogue line (lines 1045-1189).  `none` models the `continue` paths:
no parsable word-time token (line 1062), minimum start stuck at `usize::MAX`
(line 1089), or an empty reconstructed text (line 1182). -/
def convert_lys_line (property : Nat) (pieces : List Piece) : Option AssDialogueOut :=
  let ts := lysLineTokens pieces
  if ts.isEmpty then none
  else
    let minStart := lysMinStart ts
    let maxEnd := lysMaxEnd ts
    if minStart = USIZE_MAX then none
    else
      let r := lysWalk pieces "" minStart ""
      let finalText := finishTail maxEnd r.2.1 r.2.2 r.1
      if finalText = "" then none
      else some ⟨assNameOfProperty property, minStart, maxEnd, finalText⟩

/-! ### Role classifier (lines 1709-1746) and property inference
(lines 1647-1682) -/

/-- Logical classification of the ASS Name field (lines 177-182). -/
inductive AssNameCategory where
  | LeftV1 : AssNameCategory
  | RightV2 : AssNameCategory
  | Background : AssNameCategory
  | Other : AssNameCategory
deriving DecidableEq

/-- Rust `str::trim` (whitespace characters at both ends removed), modelled
character-wise. -/
def trimChars (cs : List Char) : List Char :=
  ((cs.dropWhile Char.isWhitespace).reverse.dropWhile Char.isWhitespace).reverse

/-- Rust `str::trim`. -/
def trimStr (s : String) : String := String.mk (trimChars s.data)

/-- `split_whitespace().next()` of an already-trimmed non-empty string: its
prefix up to the first whitespace character. -/
def firstToken (s : String) : String :=
  String.mk (s.data.takeWhile fun c => !c.isWhitespace)

/-- `map_ass_name_to_category` (lines 1709-1746): missing, empty, or
whitespace-only Name → LeftV1 with no warning; otherwise the first
whitespace-delimited token is compared against the fixed keyword sets, and a
token matching none of them yields Other with a warning flag.  (On a trimmed
non-empty string `split_whitespace().next()` is always `Some`, so the
source's fall-through for `None` is folded into the keyword tests.) -/
def map_ass_name_to_category : Option String → AssNameCategory × Bool
  | none => (.LeftV1, false)
  | some name_str =>
    if name_str = "" then (.LeftV1, false)
    else
      if trimStr name_str = "" then (.LeftV1, false)
      else
        if firstToken (trimStr name_str) = "左" ∨ firstToken (trimStr name_str) = "v1" ∨
            firstToken (trimStr name_str) = "合" ∨ firstToken (trimStr name_str) = "v1000" then
          (.LeftV1, false)
        else if firstToken (trimStr name_str) = "右" ∨ firstToken (trimStr name_str) = "v2" ∨
            firstToken (trimStr name_str) = "x-duet" ∨ firstToken (trimStr name_str) = "x-anti" then
          (.RightV2, false)
        else if firstToken (trimStr name_str) = "背" ∨ firstToken (trimStr name_str) = "x-bg" then
          (.Background, false)
        else (.Other, true)

/-- One parsed ASS dialogue line (struct `ParsedDialogue`, lines 165-173). -/
structure ParsedDialogue where
  line_number : Nat
  start_ms : Nat
  name : Option String
  segments : List (String × Nat)
  duration_ms : Nat
  sum_k_ms : Nat
  style : String
deriving DecidableEq

/-- `calculate_lys_property` (lines 1647-1682). -/
def calculate_lys_property (current_dialogue : ParsedDialogue)
    (previous_dialogue : Option ParsedDialogue)
    (last_calculated_property : Nat) : Nat × Bool :=
  let mc := map_ass_name_to_category current_dialogue.name
  let property :=
    match mc.1 with
    | .LeftV1 => LYS_PROPERTY_NO_BACK_LEFT
    | .RightV2 => LYS_PROPERTY_NO_BACK_RIGHT
    | .Background =>
      let previous_category :=
        match previous_dialogue with
        | some prev => (map_ass_name_to_category prev.name).1
        | none => AssNameCategory.Other
      match previous_category with
      | .LeftV1 => LYS_PROPERTY_BACK_LEFT
      | .RightV2 => LYS_PROPERTY_BACK_RIGHT
      | .Background => last_calculated_property
      | .Other => LYS_PROPERTY_BACK_UNSET
    | .Other => LYS_PROPERTY_UNSET
  (property, mc.2)

/-! ### Consistency checker (lines 1464-1477) and its call sites -/

/-- `check_time_consistency` (lines 1464-1477); the line number is used only
for the warning log. -/
def check_time_consistency (expected_duration actual_duration line_number : Nat) : Bool :=
  if expected_duration ≠ actual_duration then false else true

/-- ASCII-case-insensitive single character lowering (`eq_ignore_ascii_case`
lowers ASCII uppercase letters only). -/
def toLowerAscii (c : Char) : Char :=
  if 'A' ≤ c ∧ c ≤ 'Z' then Char.ofNat (c.toNat + 32) else c

/-- Rust `str::eq_ignore_ascii_case`. -/
def eqIgnoreAsciiCase (a b : String) : Bool :=
  a.data.map toLowerAscii == b.data.map toLowerAscii

/-- The style test guarding the consistency check at both call sites
(`convert_ass_to_lys` lines 933-935 and `process_dialogue_for_qrc` lines
1600-1602): auxiliary translation/romanization styles skip the check. -/
def styleSkipsCheck (style : String) : Bool :=
  eqIgnoreAsciiCase style "roma" || eqIgnoreAsciiCase style "trans" ||
    eqIgnoreAsciiCase style "ts"

/-- Whether processing one parsed dialogue raises a time-consistency warning
(lines 932-941 / 1599-1608). -/
def dialogueConsistencyWarn (d : ParsedDialogue) : Bool :=
  if styleSkipsCheck d.style then false
  else !check_time_consistency d.duration_ms d.sum_k_ms d.line_number

/-! ### The dialogue parser (lines 1524-1581), modelled at the level of the
regex captures: `ASS_DIALOGUE_REGEX` yields the start/end time strings, the
style, the Name field, and the `K_TAG_REGEX` capture pairs (duration digits,
following text chunk). -/

structure DialogueCaptures where
  start_time : String
  end_time : String
  style : String
  name : String
  ktags : List (String × String)
deriving DecidableEq

/-- The fold over `K_TAG_REGEX` captures (lines 1554-1565): parse each
centisecond count, convert to milliseconds, accumulate the sum. -/
def parseKTagsAux (line_number : Nat) :
    List (String × String) → List (String × Nat) → Nat →
      Except ConversionError (List (String × Nat) × Nat)
  | [], acc, sum => .ok (acc.reverse, sum)
  | (k_cs_str, seg_text) :: rest, acc, sum =>
    match parseUsize k_cs_str with
    | none => .error (.invalidFormat ("第 " ++ natDec line_number ++ " 行 K 数值解析失败"))
    | some k_cs =>
      parseKTagsAux line_number rest ((seg_text, wmul k_cs K_TAG_MULTIPLIER) :: acc)
        (wadd sum (wmul k_cs K_TAG_MULTIPLIER))

/-- `parse_ass_dialogue_line` (lines 1524-1581).  `caps = none` models a
line `ASS_DIALOGUE_REGEX` does not match (the source returns `Ok(None)`);
the duration is `end_ms.saturating_sub(start_ms)` (line 1537), which is
Nat truncated subtraction. -/
def parse_ass_dialogue_line (line_number : Nat) (caps : Option DialogueCaptures) :
    Except ConversionError (Option ParsedDialogue) :=
  match caps with
  | none => .ok none
  | some c =>
    match time_to_milliseconds c.start_time with
    | .error _ =>
      .error (.invalidFormat ("第 " ++ natDec line_number ++ " 行对话开始时间解析失败"))
    | .ok start_ms =>
      match time_to_milliseconds c.end_time with
      | .error _ =>
        .error (.invalidFormat ("第 " ++ natDec line_number ++ " 行对话结束时间解析失败"))
      | .ok end_ms =>
        match parseKTagsAux line_number c.ktags [] 0 with
        | .error e => .error e
        | .ok (segments, sum_k_ms) =>
          .ok (some ⟨line_number, start_ms,
            (if c.name = "" then none else some c.name), segments,
            end_ms - start_ms, sum_k_ms, trimStr c.style⟩)

/-! ### Claim C2: the K-value rounding rule -/

theorem segEmit_zero (text : String) : segEmit 0 text = text := by
  by_cases h : text = ""
  · simp [segEmit, h]
  · simp [segEmit, h]

theorem USIZE_MAX_eq : USIZE_MAX = 18446744073709551615 := by
  norm_num [USIZE_MAX, USIZE_MOD]

/-- C2 counterexample: the rounding law does not hold for *every*
`duration_ms` — at `duration_ms = usize::MAX` (reachable, since the token
parser accepts any value up to `usize::MAX`) the source's usize addition
`duration_ms + 5` wraps and the program emits K-value `4 / 10 = 0`, not
`(duration_ms + 5) / 10` of exact arithmetic. -/
theorem claim_C2_k_value_rounding_counterexample :
    kValue USIZE_MAX = 0 ∧ ¬ kValue USIZE_MAX = (USIZE_MAX + 5) / 10 := by
  constructor
  · decide
  · decide

/-- C2 amended: for every `duration_ms` for which the usize addition does
not wrap (`duration_ms ≤ usize::MAX - 5`), the K-value emitted for a
segment or gap is `(duration_ms + 5) / 10` with truncating division;
`duration_ms = 0` gives K-value 0; a zero K-value suppresses the tag — a
gap emits nothing and a segment emits its text alone (nothing when the text
is empty), so no `{\k0}` tag is produced. -/
theorem claim_C2_k_value_rounding_amended :
    (∀ duration_ms, duration_ms ≤ USIZE_MAX - 5 →
      kValue duration_ms = (duration_ms + 5) / 10) ∧
    kValue 0 = 0 ∧
    gapEmit 0 = "" ∧
    (∀ text, segEmit 0 text = text) := by
  refine ⟨?_, by decide, by decide, segEmit_zero⟩
  intro duration_ms hd
  have hlt : duration_ms + K_TAG_MULTIPLIER / 2 < USIZE_MOD := by
    rw [USIZE_MAX_eq] at hd
    rw [USIZE_MOD_eq]
    simp only [K_TAG_MULTIPLIER]
    omega
  unfold kValue wadd
  rw [Nat.mod_eq_of_lt hlt]
  rfl

/-- Witness for the amended C2 at an in-range duration. -/
theorem claim_C2_k_value_rounding_amended_witness :
    kValue 500 = (500 + 5) / 10 ∧ segEmit 0 "word" = "word" :=
  ⟨claim_C2_k_value_rounding_amended.1 500 (by decide),
   claim_C2_k_value_rounding_amended.2.2.2 "word"⟩

/-! ### Claim C9: zero-duration inline tokens -/

/-- C9: the QRC→ASS walk excludes a zero-duration word token from the
reconstruction: it emits no karaoke tag (the builder is untouched) and does
not advance the last-segment-end time, even when pending preceding text is
non-empty (the skipped tag's raw characters merely join that pending text);
the LYS→ASS walk applies no such filter — a zero-duration token is processed
(its pending text is consumed and emitted bare, since `kValue 0 = 0`) and
the last-segment-end time is set to its start. -/
theorem claim_C9_zero_duration_token_filter :
    (∀ (raw : String) (s : Nat) (rest : List Piece) (pending : String)
        (lastEnd : Nat) (builder : String),
      qrcWalk (Piece.tag raw s 0 :: rest) pending lastEnd builder =
        qrcWalk rest (pending ++ raw) lastEnd builder) ∧
    (∀ (raw : String) (s : Nat) (rest : List Piece) (pending : String)
        (lastEnd : Nat) (builder : String),
      lysWalk (Piece.tag raw s 0 :: rest) pending lastEnd builder =
        lysWalk rest "" (satAdd s 0)
          (builder ++ (if lastEnd < s then gapEmit (kValue (s - lastEnd)) else "") ++
            pending)) := by
  constructor
  · intro raw s rest pending lastEnd builder
    simp [qrcWalk]
  · intro raw s rest pending lastEnd builder
    simp only [lysWalk]
    rw [show kValue 0 = 0 from by decide, segEmit_zero]

/-! ### Claim C4: gap reconstruction on the concrete QRC line
`[500,2500]word1(1000,500)word2(2000,500)` -/

def c4pieces : List Piece :=
  [Piece.txt "word1", Piece.tag "(1000,500)" 1000 500,
   Piece.txt "word2", Piece.tag "(2000,500)" 2000 500]

/-- C4 counterexample: the reconstruction of the line
`[500,2500]word1(1000,500)word2(2000,500)` contains five 50-valued karaoke
tags, not exactly four as claimed — the claim overlooks the leading gap tag
for the 500 ms silence between the header start (500) and word1's start
(1000). -/
theorem claim_C4_gap_reconstruction_counterexample :
    countOcc (kTag 50).data (qrcReconstructText 500 2500 c4pieces).data = 5 ∧
    ¬ countOcc (kTag 50).data (qrcReconstructText 500 2500 c4pieces).data = 4 := by
  constructor
  · decide
  · decide

/-- C4 amended: the reconstructed text contains the mid-word gap tag and the
trailing gap tag as claimed, each K-value being `(500+5)/10 = 50`, but there
is additionally a leading gap tag for the 500 ms between the header start
(500) and word1's start (1000): the output is exactly
`{\k50}{\k50}word1{\k50}{\k50}word2{\k50}`, five 50-valued tags interleaved
with word1/word2 in that order. -/
theorem claim_C4_gap_reconstruction_amended :
    qrcReconstructText 500 2500 c4pieces =
      "\x7b\\k50\x7d\x7b\\k50\x7dword1\x7b\\k50\x7d\x7b\\k50\x7dword2\x7b\\k50\x7d" ∧
    countOcc (kTag 50).data (qrcReconstructText 500 2500 c4pieces).data = 5 := by
  constructor
  · decide
  · decide

/-! ### Claim C3: background-role inheritance -/

def dlgZuo : ParsedDialogue := ⟨1, 0, some "左", [], 0, 0, "Default"⟩

def dlgBei : ParsedDialogue := ⟨2, 0, some "背", [], 0, 0, "Default"⟩

/-- C3: a line classified Background takes its code from the previous line's
category — PrimaryOrUnset (LeftV1) gives background-left (7), DuetOrSecondary
(RightV2) gives background-right (8), Background inherits the last calculated
property unchanged, Other (also used when there is no previous line) gives
background-unset (6); consequently for the role tags `["左","背","背"]`
(threading the last calculated property as `convert_ass_to_lys` does), lines
2 and 3 both receive the background-left code. -/
theorem claim_C3_background_inheritance :
    (∀ (cur prev : ParsedDialogue) (last : Nat),
      (map_ass_name_to_category cur.name).1 = AssNameCategory.Background →
      (((map_ass_name_to_category prev.name).1 = AssNameCategory.LeftV1 →
          (calculate_lys_property cur (some prev) last).1 = LYS_PROPERTY_BACK_LEFT) ∧
        ((map_ass_name_to_category prev.name).1 = AssNameCategory.RightV2 →
          (calculate_lys_property cur (some prev) last).1 = LYS_PROPERTY_BACK_RIGHT) ∧
        ((map_ass_name_to_category prev.name).1 = AssNameCategory.Background →
          (calculate_lys_property cur (some prev) last).1 = last) ∧
        ((map_ass_name_to_category prev.name).1 = AssNameCategory.Other →
          (calculate_lys_property cur (some prev) last).1 = LYS_PROPERTY_BACK_UNSET))) ∧
    (∀ (cur : ParsedDialogue) (last : Nat),
      (map_ass_name_to_category cur.name).1 = AssNameCategory.Background →
      (calculate_lys_property cur none last).1 = LYS_PROPERTY_BACK_UNSET) ∧
    ((calculate_lys_property dlgBei (some dlgZuo)
        (calculate_lys_property dlgZuo none LYS_PROPERTY_UNSET).1).1 =
      LYS_PROPERTY_BACK_LEFT ∧
     (calculate_lys_property dlgBei (some dlgBei)
        (calculate_lys_property dlgBei (some dlgZuo)
          (calculate_lys_property dlgZuo none LYS_PROPERTY_UNSET).1).1).1 =
      LYS_PROPERTY_BACK_LEFT) := by
  refine ⟨?_, ?_, by decide, by decide⟩
  · intro cur prev last hcur
    exact ⟨fun hp => by simp [calculate_lys_property, hcur, hp],
      fun hp => by simp [calculate_lys_property, hcur, hp],
      fun hp => by simp [calculate_lys_property, hcur, hp],
      fun hp => by simp [calculate_lys_property, hcur, hp]⟩
  · intro cur last hcur
    simp [calculate_lys_property, hcur]

/-- Witness for C3 at the concrete pair (current "背", previous "左"). -/
theorem claim_C3_background_inheritance_witness :
    (calculate_lys_property dlgBei (some dlgZuo) 0).1 = LYS_PROPERTY_BACK_LEFT :=
  (claim_C3_background_inheritance.1 dlgBei dlgZuo 0 (by decide)).1 (by decide)

/-! ### Claim C5: the role classifier -/

/-- C5: a missing, empty, or whitespace-only role tag classifies as LeftV1
(PrimaryOrUnset) with no warning; any other tag is classified by its first
whitespace-delimited token against the fixed keyword sets, and a token
matching no set — for example "路人甲" — yields Other together with a raised
warning flag (the classifier is a total function, so it never aborts the
conversion). -/
theorem claim_C5_role_classifier :
    map_ass_name_to_category none = (AssNameCategory.LeftV1, false) ∧
    map_ass_name_to_category (some "") = (AssNameCategory.LeftV1, false) ∧
    (∀ s : String, trimStr s = "" →
      map_ass_name_to_category (some s) = (AssNameCategory.LeftV1, false)) ∧
    (∀ s : String, trimStr s ≠ "" →
      ((firstToken (trimStr s) = "左" ∨ firstToken (trimStr s) = "v1" ∨
          firstToken (trimStr s) = "合" ∨ firstToken (trimStr s) = "v1000") →
        map_ass_name_to_category (some s) = (AssNameCategory.LeftV1, false)) ∧
      ((firstToken (trimStr s) = "右" ∨ firstToken (trimStr s) = "v2" ∨
          firstToken (trimStr s) = "x-duet" ∨ firstToken (trimStr s) = "x-anti") →
        map_ass_name_to_category (some s) = (AssNameCategory.RightV2, false)) ∧
      ((firstToken (trimStr s) = "背" ∨ firstToken (trimStr s) = "x-bg") →
        map_ass_name_to_category (some s) = (AssNameCategory.Background, false)) ∧
      (firstToken (trimStr s) ≠ "左" → firstToken (trimStr s) ≠ "v1" →
       firstToken (trimStr s) ≠ "合" → firstToken (trimStr s) ≠ "v1000" →
       firstToken (trimStr s) ≠ "右" → firstToken (trimStr s) ≠ "v2" →
       firstToken (trimStr s) ≠ "x-duet" → firstToken (trimStr s) ≠ "x-anti" →
       firstToken (trimStr s) ≠ "背" → firstToken (trimStr s) ≠ "x-bg" →
        map_ass_name_to_category (some s) = (AssNameCategory.Other, true))) ∧
    map_ass_name_to_category (some "路人甲") = (AssNameCategory.Other, true) := by
  refine ⟨rfl, rfl, ?_, ?_, by decide⟩
  · intro s hs
    by_cases he : s = ""
    · rw [he]; rfl
    · simp only [map_ass_name_to_category]
      rw [if_neg he, if_pos hs]
  · intro s hs
    have he : s ≠ "" := fun h => hs (by rw [h]; rfl)
    refine ⟨fun h => ?_, fun h => ?_, fun h => ?_, ?_⟩
    · simp only [map_ass_name_to_category]
      rw [if_neg he, if_neg hs, if_pos h]
    · have hn1 : ¬ (firstToken (trimStr s) = "左" ∨ firstToken (trimStr s) = "v1" ∨
          firstToken (trimStr s) = "合" ∨ firstToken (trimStr s) = "v1000") := by
        rcases h with h | h | h | h <;> rw [h] <;> decide
      simp only [map_ass_name_to_category]
      rw [if_neg he, if_neg hs, if_neg hn1, if_pos h]
    · have hn1 : ¬ (firstToken (trimStr s) = "左" ∨ firstToken (trimStr s) = "v1" ∨
          firstToken (trimStr s) = "合" ∨ firstToken (trimStr s) = "v1000") := by
        rcases h with h | h <;> rw [h] <;> decide
      have hn2 : ¬ (firstToken (trimStr s) = "右" ∨ firstToken (trimStr s) = "v2" ∨
          firstToken (trimStr s) = "x-duet" ∨ firstToken (trimStr s) = "x-anti") := by
        rcases h with h | h <;> rw [h] <;> decide
      simp only [map_ass_name_to_category]
      rw [if_neg he, if_neg hs, if_neg hn1, if_neg hn2, if_pos h]
    · intro h1 h2 h3 h4 h5 h6 h7 h8 h9 h10
      have hn1 : ¬ (firstToken (trimStr s) = "左" ∨ firstToken (trimStr s) = "v1" ∨
          firstToken (trimStr s) = "合" ∨ firstToken (trimStr s) = "v1000") := by
        push_neg; exact ⟨h1, h2, h3, h4⟩
      have hn2 : ¬ (firstToken (trimStr s) = "右" ∨ firstToken (trimStr s) = "v2" ∨
          firstToken (trimStr s) = "x-duet" ∨ firstToken (trimStr s) = "x-anti") := by
        push_neg; exact ⟨h5, h6, h7, h8⟩
      have hn3 : ¬ (firstToken (trimStr s) = "背" ∨ firstToken (trimStr s) = "x-bg") := by
        push_neg; exact ⟨h9, h10⟩
      simp only [map_ass_name_to_category]
      rw [if_neg he, if_neg hs, if_neg hn1, if_neg hn2, if_neg hn3]

/-- Witness for C5: a whitespace-only tag and a duet tag with a trailing
annotation word. -/
theorem claim_C5_role_classifier_witness :
    map_ass_name_to_category (some "  ") = (AssNameCategory.LeftV1, false) ∧
    map_ass_name_to_category (some "v2 harmony") = (AssNameCategory.RightV2, false) :=
  ⟨claim_C5_role_classifier.2.2.1 "  " (by decide),
   (claim_C5_role_classifier.2.2.2.1 "v2 harmony" (by decide)).2.1 (by decide)⟩

/-! ### Claim C6: end before start is clamped, not a panic -/

theorem parseKTagsAux_ok (ln : Nat) :
    ∀ (l : List (String × String)) (acc : List (String × Nat)) (sum : Nat),
      (∀ kt ∈ l, parseUsize kt.1 ≠ none) →
      ∃ r, parseKTagsAux ln l acc sum = .ok r := by
  intro l
  induction l with
  | nil => intro acc sum _; exact ⟨_, rfl⟩
  | cons kt rest ih =>
    intro acc sum h
    obtain ⟨ks, st⟩ := kt
    have hk := h (ks, st) (by simp)
    rcases hv : parseUsize ks with _ | v
    · exact absurd hv hk
    · have hrest := ih ((st, wmul v K_TAG_MULTIPLIER) :: acc)
        (wadd sum (wmul v K_TAG_MULTIPLIER)) (fun x hx => h x (List.mem_cons_of_mem _ hx))
      simpa [parseKTagsAux, hv] using hrest

/-- C6: a dialogue line whose parsed end time is earlier than its start time
is still parsed successfully (the model is a total function returning `ok`,
matching the panic-free source), and the derived duration is the Nat
truncated — i.e. saturating — subtraction `end_ms - start_ms`, hence 0
whenever `end_ms < start_ms`. -/
theorem claim_C6_end_before_start_clamped (line_number : Nat) (c : DialogueCaptures)
    (s e : Nat)
    (hs : time_to_milliseconds c.start_time = .ok s)
    (he : time_to_milliseconds c.end_time = .ok e)
    (hk : ∀ kt ∈ c.ktags, parseUsize kt.1 ≠ none) :
    ∃ d : ParsedDialogue, parse_ass_dialogue_line line_number (some c) = .ok (some d) ∧
      d.duration_ms = e - s ∧ (e < s → d.duration_ms = 0) ∧ d.start_ms = s := by
  obtain ⟨⟨segs, sum⟩, hpk⟩ := parseKTagsAux_ok line_number c.ktags [] 0 hk
  refine ⟨⟨line_number, s, (if c.name = "" then none else some c.name), segs,
    e - s, sum, trimStr c.style⟩, ?_, rfl, fun h => by show e - s = 0; omega, rfl⟩
  unfold parse_ass_dialogue_line
  dsimp only
  rw [hs]
  dsimp only
  rw [he]
  dsimp only
  rw [hpk]

def capsRev : DialogueCaptures := ⟨"0:00:10.00", "0:00:05.00", "Default", "", []⟩

/-- Witness for C6: a line running from 0:00:10.00 back to 0:00:05.00. -/
theorem claim_C6_end_before_start_clamped_witness :
    ∃ d : ParsedDialogue, parse_ass_dialogue_line 1 (some capsRev) = .ok (some d) ∧
      d.duration_ms = 5000 - 10000 ∧ (5000 < 10000 → d.duration_ms = 0) ∧
      d.start_ms = 10000 :=
  claim_C6_end_before_start_clamped 1 capsRev 10000 5000 (by decide) (by decide)
    (by intro kt hk; simp [capsRev] at hk)

/-! ### Claim C7: the consistency checker -/

/-- C7: `check_time_consistency` returns true exactly when the declared
duration equals the karaoke-segment sum and false exactly when they differ
(a Bool result — it never aborts); at the call sites the check is skipped
(no warning can be raised) for the auxiliary styles "roma", "trans" and
"ts", compared ASCII-case-insensitively. -/
theorem claim_C7_consistency_check :
    (∀ expected actual ln,
      check_time_consistency expected actual ln = true ↔ expected = actual) ∧
    (∀ expected actual ln,
      check_time_consistency expected actual ln = false ↔ expected ≠ actual) ∧
    (∀ d : ParsedDialogue, styleSkipsCheck d.style = true →
      dialogueConsistencyWarn d = false) ∧
    (∀ d : ParsedDialogue, styleSkipsCheck d.style = false →
      dialogueConsistencyWarn d =
        !check_time_consistency d.duration_ms d.sum_k_ms d.line_number) ∧
    (styleSkipsCheck "roma" = true ∧ styleSkipsCheck "trans" = true ∧
     styleSkipsCheck "ts" = true ∧ styleSkipsCheck "Default" = false) := by
  refine ⟨?_, ?_, ?_, ?_, by decide⟩
  · intro expected actual ln
    unfold check_time_consistency
    by_cases h : expected = actual
    · simp [h]
    · simp [h]
  · intro expected actual ln
    unfold check_time_consistency
    by_cases h : expected = actual
    · simp [h]
    · simp [h]
  · intro d h
    simp [dialogueConsistencyWarn, h]
  · intro d h
    simp [dialogueConsistencyWarn, h]

def dlgRoma : ParsedDialogue := ⟨3, 0, none, [], 100, 0, "Roma"⟩

/-- Witness for C7: equal durations check out, and a mismatched "Roma"-style
line raises no warning. -/
theorem claim_C7_consistency_check_witness :
    check_time_consistency 100 100 1 = true ∧ dialogueConsistencyWarn dlgRoma = false :=
  ⟨(claim_C7_consistency_check.1 100 100 1).mpr rfl,
   claim_C7_consistency_check.2.2.1 dlgRoma (by decide)⟩

/-! ### Claim C10: the LYS→ASS per-line output -/

theorem foldlMin_le (ts : List (Nat × Nat)) :
    ∀ init, (∀ p ∈ ts,
        ts.foldl (fun acc p => if p.1 < acc then p.1 else acc) init ≤ p.1) ∧
      ts.foldl (fun acc p => if p.1 < acc then p.1 else acc) init ≤ init := by
  induction ts with
  | nil => intro init; exact ⟨by simp, by simp⟩
  | cons q ts ih =>
    intro init
    simp only [List.foldl_cons]
    have hstep : (if q.1 < init then q.1 else init) ≤ init := by split <;> omega
    have hstepq : (if q.1 < init then q.1 else init) ≤ q.1 := by split <;> omega
    refine ⟨?_, le_trans (ih _).2 hstep⟩
    intro p hp
    rcases List.mem_cons.mp hp with rfl | hp
    · exact le_trans (ih _).2 hstepq
    · exact (ih _).1 p hp

theorem foldlMin_mem (ts : List (Nat × Nat)) :
    ∀ init, ts.foldl (fun acc p => if p.1 < acc then p.1 else acc) init = init ∨
      ∃ p ∈ ts, ts.foldl (fun acc p => if p.1 < acc then p.1 else acc) init = p.1 := by
  induction ts with
  | nil => intro init; exact Or.inl rfl
  | cons q ts ih =>
    intro init
    simp only [List.foldl_cons]
    rcases ih (if q.1 < init then q.1 else init) with h | ⟨p, hp, hfold⟩
    · by_cases hq : q.1 < init
      · exact Or.inr ⟨q, by simp, by rw [h, if_pos hq]⟩
      · exact Or.inl (by rw [h, if_neg hq])
    · exact Or.inr ⟨p, by simp [hp], hfold⟩

theorem foldlMax_ge (ts : List (Nat × Nat)) :
    ∀ init, (∀ p ∈ ts, satAdd p.1 p.2 ≤
        ts.foldl (fun acc p => if acc < satAdd p.1 p.2 then satAdd p.1 p.2 else acc) init) ∧
      init ≤ ts.foldl (fun acc p => if acc < satAdd p.1 p.2 then satAdd p.1 p.2 else acc) init := by
  induction ts with
  | nil => intro init; exact ⟨by simp, by simp⟩
  | cons q ts ih =>
    intro init
    simp only [List.foldl_cons]
    have hstep : init ≤ (if init < satAdd q.1 q.2 then satAdd q.1 q.2 else init) := by
      split <;> omega
    have hstepq : satAdd q.1 q.2 ≤ (if init < satAdd q.1 q.2 then satAdd q.1 q.2 else init) := by
      split <;> omega
    refine ⟨?_, le_trans hstep (ih _).2⟩
    intro p hp
    rcases List.mem_cons.mp hp with rfl | hp
    · exact le_trans hstepq (ih _).2
    · exact (ih _).1 p hp

theorem foldlMax_mem (ts : List (Nat × Nat)) :
    ∀ init, ts.foldl (fun acc p => if acc < satAdd p.1 p.2 then satAdd p.1 p.2 else acc) init =
        init ∨
      ∃ p ∈ ts,
        ts.foldl (fun acc p => if acc < satAdd p.1 p.2 then satAdd p.1 p.2 else acc) init =
          satAdd p.1 p.2 := by
  induction ts with
  | nil => intro init; exact Or.inl rfl
  | cons q ts ih =>
    intro init
    simp only [List.foldl_cons]
    rcases ih (if init < satAdd q.1 q.2 then satAdd q.1 q.2 else init) with h | ⟨p, hp, hfold⟩
    · by_cases hq : init < satAdd q.1 q.2
      · exact Or.inr ⟨q, by simp, by rw [h, if_pos hq]⟩
      · exact Or.inl (by rw [h, if_neg hq])
    · exact Or.inr ⟨p, by simp [hp], hfold⟩

theorem convert_lys_line_some {property : Nat} {pieces : List Piece} {out : AssDialogueOut}
    (h : convert_lys_line property pieces = some out) :
    (lysLineTokens pieces).isEmpty = false ∧
    lysMinStart (lysLineTokens pieces) ≠ USIZE_MAX ∧
    out.name = assNameOfProperty property ∧
    out.startMs = lysMinStart (lysLineTokens pieces) ∧
    out.endMs = lysMaxEnd (lysLineTokens pieces) := by
  unfold convert_lys_line at h
  dsimp only at h
  split at h
  · exact absurd h (by simp)
  · split at h
    · exact absurd h (by simp)
    · split at h
      · exact absurd h (by simp)
      · rename_i he hmin _
        obtain rfl := (Option.some.inj h).symm
        exact ⟨by simpa using he, hmin, rfl, rfl, rfl⟩

/-- C10: in the LYS→ASS conversion the Name field depends only on the
property code (1, 4, 7 ↦ "左"; 2, 5, 8 ↦ "右"; 6 ↦ "背"; anything else,
including 0, ↦ the empty Name); an emitted line's start time is the minimum
token start and its end time the maximum of `start.saturating_add(duration)`
over the tokens; a line with no parsable `(start,duration)` token produces
no output line. -/
theorem claim_C10_lys_line_output :
    (assNameOfProperty LYS_PROPERTY_LEFT = "左" ∧
     assNameOfProperty LYS_PROPERTY_NO_BACK_LEFT = "左" ∧
     assNameOfProperty LYS_PROPERTY_BACK_LEFT = "左" ∧
     assNameOfProperty LYS_PROPERTY_RIGHT = "右" ∧
     assNameOfProperty LYS_PROPERTY_NO_BACK_RIGHT = "右" ∧
     assNameOfProperty LYS_PROPERTY_BACK_RIGHT = "右" ∧
     assNameOfProperty LYS_PROPERTY_BACK_UNSET = "背" ∧
     (∀ p : Nat, p ≠ 1 → p ≠ 2 → p ≠ 4 → p ≠ 5 → p ≠ 6 → p ≠ 7 → p ≠ 8 →
       assNameOfProperty p = "")) ∧
    (∀ (property : Nat) (pieces : List Piece) (out : AssDialogueOut),
      convert_lys_line property pieces = some out →
      out.name = assNameOfProperty property ∧
      out.startMs = lysMinStart (lysLineTokens pieces) ∧
      out.endMs = lysMaxEnd (lysLineTokens pieces) ∧
      (∀ p ∈ lysLineTokens pieces, out.startMs ≤ p.1 ∧ satAdd p.1 p.2 ≤ out.endMs) ∧
      (∃ p ∈ lysLineTokens pieces, out.startMs = p.1) ∧
      (∃ p ∈ lysLineTokens pieces, out.endMs = satAdd p.1 p.2)) ∧
    (∀ (property : Nat) (pieces : List Piece),
      lysLineTokens pieces = [] → convert_lys_line property pieces = none) := by
  refine ⟨⟨by decide, by decide, by decide, by decide, by decide, by decide, by decide, ?_⟩,
    ?_, ?_⟩
  · intro p h1 h2 h4 h5 h6 h7 h8
    unfold assNameOfProperty
    rw [if_neg (by simp only [LYS_PROPERTY_LEFT, LYS_PROPERTY_NO_BACK_LEFT,
        LYS_PROPERTY_BACK_LEFT]; omega),
      if_neg (by simp only [LYS_PROPERTY_RIGHT, LYS_PROPERTY_NO_BACK_RIGHT,
        LYS_PROPERTY_BACK_RIGHT]; omega),
      if_neg (by simp only [LYS_PROPERTY_BACK_UNSET]; omega)]
  · intro property pieces out h
    obtain ⟨hne, hmin, hname, hstart, hend⟩ := convert_lys_line_some h
    have hnil : lysLineTokens pieces ≠ [] := by
      intro hcon; rw [hcon] at hne; simp at hne
    refine ⟨hname, hstart, hend, ?_, ?_, ?_⟩
    · intro p hp
      constructor
      · rw [hstart]; exact (foldlMin_le (lysLineTokens pieces) USIZE_MAX).1 p hp
      · rw [hend]; exact (foldlMax_ge (lysLineTokens pieces) 0).1 p hp
    · rcases foldlMin_mem (lysLineTokens pieces) USIZE_MAX with hm | ⟨p, hp, hm⟩
      · exact absurd hm hmin
      · exact ⟨p, hp, by rw [hstart]; exact hm⟩
    · rcases foldlMax_mem (lysLineTokens pieces) 0 with hm | ⟨p, hp, hm⟩
      · obtain ⟨p, hp⟩ := List.exists_mem_of_ne_nil _ hnil
        refine ⟨p, hp, ?_⟩
        have hle : satAdd p.1 p.2 ≤ lysMaxEnd (lysLineTokens pieces) :=
          (foldlMax_ge (lysLineTokens pieces) 0).1 p hp
        have hzero : lysMaxEnd (lysLineTokens pieces) = 0 := hm
        rw [hzero] at hle
        rw [hend, hzero]
        omega
      · exact ⟨p, hp, by rw [hend]; exact hm⟩
  · intro property pieces h
    simp [convert_lys_line, h]

def lysDemoPieces : List Piece := [Piece.txt "hi", Piece.tag "(100,200)" 100 200]

def lysDemoOut : AssDialogueOut := ⟨"左", 100, 300, "\x7b\\k20\x7dhi"⟩

/-- Witness for C10: one line with property 4 and a single token. -/
theorem claim_C10_lys_line_output_witness :
    lysDemoOut.name = assNameOfProperty 4 ∧
    lysDemoOut.startMs = lysMinStart (lysLineTokens lysDemoPieces) ∧
    lysDemoOut.endMs = lysMaxEnd (lysLineTokens lysDemoPieces) ∧
    assNameOfProperty 0 = "" ∧
    convert_lys_line 7 [] = none := by
  have h := claim_C10_lys_line_output.2.1 4 lysDemoPieces lysDemoOut (by decide)
  exact ⟨h.1, h.2.1, h.2.2.1,
    claim_C10_lys_line_output.1.2.2.2.2.2.2.2 0 (by decide) (by decide) (by decide)
      (by decide) (by decide) (by decide) (by decide),
    claim_C10_lys_line_output.2.2 7 [] rfl⟩

end AssQrc
